import Mathlib

/-!
Shallow embedding of the `linear-reminder` service (src/src/main.rs): a webhook
intake handler that tracks Linear issues in a Postgres-backed queue, and a
background worker that claims the oldest unreminded issue and posts a reminder
comment through the Linear API.

The database table `issues` is modelled as a `List Issue`; row locks held by
other in-flight claims are modelled as a list of locked ids; timestamps are
integers (seconds).  Store and Notifier failures are injected as explicit
parameters, mirroring where the Rust code can observe an `Err` or a non-2xx
response.
-/

set_option autoImplicit false

namespace LinearReminder

/-- A row of the `issues` table (struct `Issue` in main.rs).  The column
`updated_at` stores the triggering event's `createdAt` timestamp (see the
INSERT in `webhook_linear`). -/
structure Issue where
  id : String
  identifier : String
  title : String
  updated_at : Int
  reminded : Bool
deriving DecidableEq

/-- A row is eligible for a claim when `reminded = FALSE` and the row is not
locked by another in-flight claim (`FOR UPDATE SKIP LOCKED`). -/
def eligibleB (locked : List String) (i : Issue) : Bool :=
  !i.reminded && !(locked.contains i.id)

/-- Keep the row with the strictly older `updated_at`; ties keep the first,
matching `ORDER BY updated_at ASC LIMIT 1` picking one minimal row. -/
def pickOlder (a b : Issue) : Issue :=
  if b.updated_at < a.updated_at then b else a

/-- The row with minimal `updated_at` among `x :: xs`. -/
def argminIssue (x : Issue) (xs : List Issue) : Issue :=
  xs.foldl pickOlder x

/-- `dequeue_issue` (main.rs:174-203): inside a fresh transaction, select at
most one row with `reminded = FALSE`, ordered by `updated_at` ascending,
skipping rows locked by another in-flight claim. -/
def dequeue_issue (db : List Issue) (locked : List String) : Option Issue :=
  match db.filter (eligibleB locked) with
  | [] => none
  | x :: xs => some (argminIssue x xs)

theorem pickOlder_le_left (a b : Issue) : (pickOlder a b).updated_at ≤ a.updated_at := by
  unfold pickOlder
  split <;> omega

theorem pickOlder_le_right (a b : Issue) : (pickOlder a b).updated_at ≤ b.updated_at := by
  unfold pickOlder
  split <;> omega

theorem pickOlder_cases (a b : Issue) : pickOlder a b = a ∨ pickOlder a b = b := by
  unfold pickOlder
  split
  · exact Or.inr rfl
  · exact Or.inl rfl

theorem argminIssue_mem (x : Issue) (xs : List Issue) : argminIssue x xs ∈ x :: xs := by
  induction xs generalizing x with
  | nil => simp [argminIssue]
  | cons y ys ih =>
    have h := ih (pickOlder x y)
    have hx : argminIssue x (y :: ys) = argminIssue (pickOlder x y) ys := rfl
    rw [hx]
    rcases List.mem_cons.1 h with h1 | h1
    · rcases pickOlder_cases x y with hc | hc
      · rw [h1, hc]; exact List.mem_cons_self _ _
      · rw [h1, hc]; exact List.mem_cons_of_mem _ (List.mem_cons_self _ _)
    · exact List.mem_cons_of_mem _ (List.mem_cons_of_mem _ h1)

theorem argminIssue_le (x : Issue) (xs : List Issue) :
    ∀ y ∈ x :: xs, (argminIssue x xs).updated_at ≤ y.updated_at := by
  induction xs generalizing x with
  | nil =>
    intro y hy
    rcases List.mem_cons.1 hy with h | h
    · subst h; simp [argminIssue]
    · cases h
  | cons z zs ih =>
    intro y hy
    have hx : argminIssue x (z :: zs) = argminIssue (pickOlder x z) zs := rfl
    rw [hx]
    have hstep := ih (pickOlder x z)
    have hmin : (argminIssue (pickOlder x z) zs).updated_at ≤ (pickOlder x z).updated_at :=
      hstep _ (List.mem_cons_self _ _)
    rcases List.mem_cons.1 hy with h | h
    · rw [h]
      exact le_trans hmin (pickOlder_le_left x z)
    · rcases List.mem_cons.1 h with h1 | h1
      · rw [h1]
        exact le_trans hmin (pickOlder_le_right x z)
      · exact hstep _ (List.mem_cons_of_mem _ h1)

theorem dequeue_issue_some {db : List Issue} {locked : List String} {i : Issue}
    (h : dequeue_issue db locked = some i) :
    i ∈ db ∧ i.reminded = false ∧ locked.contains i.id = false ∧
      ∀ j ∈ db, j.reminded = false → locked.contains j.id = false →
        i.updated_at ≤ j.updated_at := by
  unfold dequeue_issue at h
  rcases hf : db.filter (eligibleB locked) with _ | ⟨x, xs⟩
  · rw [hf] at h; cases h
  · rw [hf] at h
    have hi : i = argminIssue x xs := by
      injection h with h'
      exact h'.symm
    have hmem : i ∈ x :: xs := hi ▸ argminIssue_mem x xs
    have hmemf : i ∈ db.filter (eligibleB locked) := by rw [hf]; exact hmem
    have hmemdb := List.mem_filter.1 hmemf
    have helig : eligibleB locked i = true := hmemdb.2
    unfold eligibleB at helig
    simp only [Bool.and_eq_true, Bool.not_eq_true'] at helig
    refine ⟨hmemdb.1, helig.1, helig.2, ?_⟩
    intro j hj hjr hjl
    have hjf : j ∈ db.filter (eligibleB locked) := by
      refine List.mem_filter.2 ⟨hj, ?_⟩
      unfold eligibleB
      rw [hjr, hjl]
      rfl
    rw [hf] at hjf
    exact hi ▸ argminIssue_le x xs j hjf

/-- The issue state carried in the webhook payload (struct `StateData`). -/
structure StateData where
  name : String
deriving DecidableEq

/-- The issue data carried in the webhook payload (struct `IssueData`);
unknown extra fields are ignored by serde and hence absent here. -/
structure IssueData where
  id : String
  identifier : String
  title : String
  state : StateData
deriving DecidableEq

/-- The webhook payload (struct `Payload`): action, event type, the event's
`createdAt` timestamp, the issue data, and the declared `webhookTimestamp`. -/
structure Payload where
  action : String
  event_type : String
  created_at : Int
  data : IssueData
  webhook_timestamp : Int
deriving DecidableEq

/-- Number of rows of the table whose `id` equals `id`. -/
def countId (db : List Issue) (id : String) : Nat :=
  (db.filter (fun i => i.id == id)).length

/-- `issue_in_db` (main.rs:205-222): `SELECT COUNT(*) FROM issues WHERE id = $1`
and return `true` exactly when the count is 1. -/
def issue_in_db (db : List Issue) (id : String) : Bool :=
  countId db id == 1

/-- The row inserted by the INSERT in `webhook_linear` (main.rs:311-320): the
payload's issue fields, the event's `created_at` stored into `updated_at`, and
`reminded = false`. -/
def insertedRow (p : Payload) : Issue :=
  { id := p.data.id, identifier := p.data.identifier, title := p.data.title,
    updated_at := p.created_at, reminded := false }

/-- `INSERT ... ON CONFLICT DO NOTHING` keyed on `id`.  The `issues` table's
unique key is declared in `migrations/1_issues.sql`, which is not under src/;
Modelled from the spec: "`id` is unique; re-insertion of an already-tracked
`id` is a no-op (first-write-wins for `created_at`)". -/
def insertIfAbsent (db : List Issue) (p : Payload) : List Issue :=
  if db.any (fun i => i.id == p.data.id) then db else db ++ [insertedRow p]

/-- `DELETE FROM issues WHERE id = $1` (main.rs:323). -/
def deleteId (db : List Issue) (id : String) : List Issue :=
  db.filter (fun i => !(i.id == id))

/-- `UPDATE issues SET reminded = TRUE WHERE id = $1` (main.rs:418-421). -/
def markReminded (db : List Issue) (id : String) : List Issue :=
  db.map (fun i => if i.id == id then { i with reminded := true } else i)

/-- The success path of `webhook_linear` (main.rs:299-331) as a pure table
transformation: if the payload's state name equals the configured target
status, insert-if-absent; otherwise delete the row when `issue_in_db` reports
exactly one row; otherwise leave the table unchanged. -/
def intake (target : String) (p : Payload) (db : List Issue) : List Issue :=
  if p.data.state.name == target then
    insertIfAbsent db p
  else if issue_in_db db p.data.id then
    deleteId db p.data.id
  else
    db

/-- Outcome of the intake route: `Except.error` models the handler returning
`Err` (surfaced by Rocket as an internal server error), `Except.ok` the `Ok(())`
success response. -/
abbrev IntakeOutcome := Except Unit Unit

/-- `webhook_linear` (main.rs:299-331) with injected Store failures.  Each
`*Ok` flag tells whether the corresponding store call succeeds.  On any `?`
error the open transaction is dropped, which rolls it back, so the committed
table is returned unchanged.  Note the delete path guard is
`else if let Ok(true) = issue_in_db(..)`: a store error from the count query is
indistinguishable from `Ok(false)` there, so the handler skips the delete,
commits, and returns success. -/
def webhook_linear (target : String) (p : Payload) (db : List Issue)
    (beginOk insertOk countOk deleteOk commitOk : Bool) :
    IntakeOutcome × List Issue :=
  if !beginOk then (Except.error (), db)
  else if p.data.state.name == target then
    if !insertOk then (Except.error (), db)
    else if !commitOk then (Except.error (), db)
    else (Except.ok (), insertIfAbsent db p)
  else if countOk && issue_in_db db p.data.id then
    if !deleteOk then (Except.error (), db)
    else if !commitOk then (Except.error (), db)
    else (Except.ok (), deleteId db p.data.id)
  else
    if !commitOk then (Except.error (), db)
    else (Except.ok (), db)

/-- The parts of the inbound HTTP request that `Payload::from_data`
(main.rs:228-284) inspects: the values of the `Linear-Signature` header,
whether the content type is `application/json`, and the raw body. -/
structure RequestModel where
  sigHeaders : List String
  contentTypeJson : Bool
  body : String

/-- Rocket data-guard outcome, specialised to `Payload`: `success` hands the
parsed payload to the route, `error` aborts with a status, `forward` passes
the request on (wrong content type). -/
inductive DataOutcome where
  | success (p : Payload)
  | error (status : Nat)
  | forward (status : Nat)

/-- `is_valid_signature` (main.rs:287-297): hex-encoded HMAC-SHA256 of the
body keyed by the secret, compared with the header value.  The HMAC-SHA256
computation lives in the external `hmac`/`sha2`/`hex` crates, so it is kept
abstract as `hmacHex secret body`, returning the hex digest. -/
def is_valid_signature (hmacHex : String → String → String)
    (signature body secret : String) : Bool :=
  hmacHex secret body == signature

/-- `req.limits().get("json").unwrap_or(5.kilobytes())` (main.rs:249):
the configured `json` limit, defaulting to 5 kilobytes (5000 bytes). -/
def jsonLimit (configured : Option Nat) : Nat :=
  configured.getD 5000

/-- Modelled from the chrono crate (external dependency): smallest timestamp
representable by `DateTime<Utc>` (`MIN_UTC.timestamp()`). -/
def chronoTsMin : Int := -8334601228800

/-- Modelled from the chrono crate (external dependency): largest timestamp
representable by `DateTime<Utc>` (`MAX_UTC.timestamp()`). -/
def chronoTsMax : Int := 8210266876799

/-- `DateTime::from_timestamp(secs, 0)` (main.rs:274): `none` outside chrono's
representable range. -/
def fromTimestamp (ts : Int) : Option Int :=
  if chronoTsMin ≤ ts ∧ ts ≤ chronoTsMax then some ts else none

/-- `Payload::from_data` (main.rs:232-283): require exactly one
`Linear-Signature` header, a JSON content type, a body within the `json`
limit, a valid signature, a parseable body (`serde_json::from_str`, kept
abstract as `parse`), and a webhook timestamp at most 60 seconds older than
`now`.  `parse` is a parameter, so every rejection that happens before the
`serde_json::from_str` call is provably independent of it. -/
def from_data (hmacHex : String → String → String)
    (parse : String → Option Payload) (signingKey : String)
    (limitCfg : Option Nat) (now : Int) (req : RequestModel) : DataOutcome :=
  match req.sigHeaders with
  | [signature] =>
    if !req.contentTypeJson then DataOutcome.forward 415
    else if jsonLimit limitCfg < req.body.length then DataOutcome.error 413
    else if !(is_valid_signature hmacHex signature req.body signingKey) then
      DataOutcome.error 400
    else
      match parse req.body with
      | none => DataOutcome.error 400
      | some p =>
        match fromTimestamp p.webhook_timestamp with
        | none => DataOutcome.error 400
        | some webhook_time =>
          if now - webhook_time > 60 then DataOutcome.error 400
          else DataOutcome.success p
  | _ => DataOutcome.error 400

/-- Net observable effect of one request against the route: `status` is
`some s` when the guard rejected (or forwarded) with status `s` and `none` on
success; `db` is the committed table; `notified` records whether the Notifier
was called while handling this request (the route never calls it — only the
worker does). -/
structure RequestResult where
  status : Option Nat
  db : List Issue
  notified : Bool
deriving DecidableEq

/-- The full intake path: run the `Payload::from_data` guard, then (on
success) the `webhook_linear` route body with all store calls succeeding. -/
def handleRequest (hmacHex : String → String → String)
    (parse : String → Option Payload) (signingKey target : String)
    (limitCfg : Option Nat) (now : Int) (req : RequestModel)
    (db : List Issue) : RequestResult :=
  match from_data hmacHex parse signingKey limitCfg now req with
  | DataOutcome.success p => ⟨none, intake target p db, false⟩
  | DataOutcome.error s => ⟨some s, db, false⟩
  | DataOutcome.forward s => ⟨some s, db, false⟩

/-- Result of the Notifier call (`client.post(..).send()` in the worker):
either a network error (`send` returned `Err`) or an HTTP response status. -/
inductive NotifierResult where
  | netError
  | response (status : Nat)
deriving DecidableEq

/-- `reqwest::StatusCode::is_success`: 2xx. -/
def isSuccessStatus (s : Nat) : Bool :=
  200 ≤ s && s < 300

/-- `true` exactly when the worker's posting attempt failed: network error or
non-2xx response (main.rs:396-416). -/
def notifierFailed : NotifierResult → Bool
  | NotifierResult.netError => true
  | NotifierResult.response s => !isSuccessStatus s

/-- Observable outcome of one worker tick: the committed table, whether the
Notifier (Linear API) was called, and whether a `reminded = TRUE` update was
committed. -/
structure TickResult where
  db : List Issue
  notified : Bool
  remindedSet : Bool
deriving DecidableEq

/-- One iteration of the worker loop (main.rs:370-435): claim via
`dequeue_issue`; if the claimed issue's age exceeds `time_to_remind`, call the
Notifier; on success run the `reminded = TRUE` update and commit only when
exactly one row was affected, rolling back otherwise; on Notifier failure
`continue`, dropping (rolling back) the claim transaction; if the issue is not
yet due, the transaction is likewise dropped without any update.
`updateOk` injects the success of the UPDATE store call. -/
def workerTick (db : List Issue) (locked : List String) (now : Int)
    (timeToRemind : Int) (notifier : NotifierResult) (updateOk : Bool) :
    TickResult :=
  match dequeue_issue db locked with
  | none => ⟨db, false, false⟩
  | some issue =>
    if now - issue.updated_at > timeToRemind then
      if notifierFailed notifier then
        ⟨db, true, false⟩
      else if !updateOk then
        ⟨db, true, false⟩
      else if countId db issue.id == 1 then
        ⟨markReminded db issue.id, true, true⟩
      else
        ⟨db, true, false⟩
    else
      ⟨db, false, false⟩

theorem countId_append (db l : List Issue) (id : String) :
    countId (db ++ l) id = countId db id + countId l id := by
  unfold countId
  rw [List.filter_append, List.length_append]

theorem countId_eq_zero_iff (db : List Issue) (id : String) :
    countId db id = 0 ↔ db.any (fun i => i.id == id) = false := by
  unfold countId
  rw [List.length_eq_zero, List.filter_eq_nil_iff, List.any_eq_false]

theorem any_of_countId_pos {db : List Issue} {id : String}
    (h : 0 < countId db id) : db.any (fun i => i.id == id) = true := by
  by_contra hne
  have h0 : countId db id = 0 :=
    (countId_eq_zero_iff db id).2 (Bool.not_eq_true _ ▸ (by simpa using hne))
  omega

theorem countId_insertedRow (p : Payload) : countId [insertedRow p] p.data.id = 1 := by
  simp [countId, insertedRow]

theorem countId_markReminded (db : List Issue) (id dmid : String) :
    countId (markReminded db dmid) id = countId db id := by
  unfold countId markReminded
  rw [List.filter_map]
  have hfn : ((fun i => i.id == id) ∘
      fun (i : Issue) => if i.id == dmid then { i with reminded := true } else i) =
      fun (i : Issue) => i.id == id := by
    funext i
    simp only [Function.comp]
    split <;> rfl
  rw [hfn, List.length_map]

theorem countId_deleteId (db : List Issue) (id : String) :
    countId (deleteId db id) id = 0 := by
  unfold countId deleteId
  rw [List.length_eq_zero, List.filter_eq_nil_iff]
  intro a ha
  have := (List.mem_filter.1 ha).2
  simpa using this

theorem intake_eligible_count_one (target : String) (p : Payload) (db : List Issue)
    (hp : p.data.state.name = target) (hc : countId db p.data.id ≤ 1) :
    countId (intake target p db) p.data.id = 1 := by
  unfold intake insertIfAbsent
  rw [if_pos (by simp [hp])]
  rcases Nat.lt_or_ge 0 (countId db p.data.id) with h | h
  · rw [if_pos (any_of_countId_pos h)]
    omega
  · have h0 : countId db p.data.id = 0 := by omega
    have hany := (countId_eq_zero_iff db p.data.id).1 h0
    rw [if_neg (by simp [hany])]
    rw [countId_append, countId_insertedRow, h0]

theorem intake_noneligible_count (target : String) (q : Payload) (db : List Issue)
    (hq : ¬ q.data.state.name = target) (hc : countId db q.data.id = 1) :
    intake target q db = deleteId db q.data.id := by
  unfold intake
  rw [if_neg (by simp [hq])]
  rw [if_pos (by simp [issue_in_db, hc])]

/-! Concrete fixtures used by the witness theorems. -/

def rowA : Issue := ⟨"a", "HSI-1", "Taxes", 100, false⟩

def rowB : Issue := ⟨"b", "HSI-2", "Budget", 50, false⟩

def rowC : Issue := ⟨"c", "HSI-3", "Audit", 10, true⟩

def dbW : List Issue := [rowA, rowB, rowC]

def payloadE1 : Payload :=
  ⟨"update", "Issue", 100, ⟨"a", "HSI-1", "Taxes", ⟨"In Progress"⟩⟩, 0⟩

def payloadE2 : Payload :=
  ⟨"update", "Issue", 200, ⟨"a", "HSI-1", "Taxes v2", ⟨"In Progress"⟩⟩, 5⟩

def payloadL : Payload :=
  ⟨"update", "Issue", 300, ⟨"a", "HSI-1", "Taxes", ⟨"Done"⟩⟩, 9⟩

/-- C1: the claim operation `dequeue_issue` returns at most one entry (it
yields an `Option`), selected only from rows with `reminded = false`, ordered
oldest-first by the stored event timestamp (`updated_at`), skipping rows
locked by another in-flight claim; consequently a row whose `reminded` flag is
`true` is never returned by any claim. -/
theorem dequeue_claims_oldest_unreminded (db : List Issue) (locked : List String)
    (i : Issue) (h : dequeue_issue db locked = some i) :
    i ∈ db ∧ i.reminded = false ∧ locked.contains i.id = false ∧
      (∀ j ∈ db, j.reminded = false → locked.contains j.id = false →
        i.updated_at ≤ j.updated_at) ∧
      (∀ j : Issue, j.reminded = true → dequeue_issue db locked ≠ some j) := by
  obtain ⟨h1, h2, h3, h4⟩ := dequeue_issue_some h
  refine ⟨h1, h2, h3, h4, ?_⟩
  intro j hj heq
  have hr := (dequeue_issue_some heq).2.1
  rw [hj] at hr
  cases hr

theorem dequeue_claims_oldest_unreminded_witness :
    dequeue_issue dbW ["b"] = some rowA ∧ rowA.reminded = false :=
  ⟨by decide, (dequeue_claims_oldest_unreminded dbW ["b"] rowA (by decide)).2.1⟩

/-- C2: intake is idempotent for the eligible state: starting from a table
with no row for the item's id, handling an eligible-state event and then a
second eligible-state event with the same id leaves the table of the first
call unchanged (the second insert is a no-op), with exactly one row for that
id, namely the first event's row (first-write-wins for the stored
timestamp). -/
theorem intake_idempotent_first_write_wins (target : String) (p q : Payload)
    (db : List Issue) (hp : p.data.state.name = target)
    (hq : q.data.state.name = target) (hid : q.data.id = p.data.id)
    (hfresh : countId db p.data.id = 0) :
    intake target q (intake target p db) = intake target p db ∧
      countId (intake target p db) p.data.id = 1 ∧
      insertedRow p ∈ intake target p db := by
  have hany : db.any (fun i => i.id == p.data.id) = false :=
    (countId_eq_zero_iff db p.data.id).1 hfresh
  have h1 : intake target p db = db ++ [insertedRow p] := by
    unfold intake insertIfAbsent
    rw [if_pos (by simp [hp]), if_neg (by simp [hany])]
  have hmem : insertedRow p ∈ db ++ [insertedRow p] :=
    List.mem_append_right db (List.mem_singleton.2 rfl)
  have hany2 : (db ++ [insertedRow p]).any (fun i => i.id == q.data.id) = true :=
    List.any_eq_true.2 ⟨insertedRow p, hmem, by simp [insertedRow, hid]⟩
  have h2 : intake target q (db ++ [insertedRow p]) = db ++ [insertedRow p] := by
    unfold intake insertIfAbsent
    rw [if_pos (by simp [hq]), if_pos hany2]
  refine ⟨?_, ?_, ?_⟩
  · rw [h1, h2]
  · rw [h1, countId_append, countId_insertedRow, hfresh]
  · rw [h1]; exact hmem

theorem intake_idempotent_first_write_wins_witness :
    countId [] payloadE1.data.id = 0 ∧
      intake "In Progress" payloadE2 (intake "In Progress" payloadE1 []) =
        intake "In Progress" payloadE1 [] :=
  ⟨rfl, (intake_idempotent_first_write_wins "In Progress" payloadE1 payloadE2 []
    rfl rfl rfl rfl).1⟩

/-- C3: round-trip eligibility: from a table with at most one row for the id,
an eligible-state event followed by a non-eligible-state event for the same id
leaves no row for that id — both when the item was not reminded in between and
when a `reminded = TRUE` update landed in between (the delete ignores the
`reminded` flag). -/
theorem intake_roundtrip_absent (target : String) (p q : Payload)
    (db : List Issue) (hp : p.data.state.name = target)
    (hq : ¬ q.data.state.name = target) (hid : q.data.id = p.data.id)
    (hcount : countId db p.data.id ≤ 1) :
    countId (intake target q (intake target p db)) p.data.id = 0 ∧
      countId (intake target q (markReminded (intake target p db) p.data.id))
        p.data.id = 0 := by
  have h1 : countId (intake target p db) p.data.id = 1 :=
    intake_eligible_count_one target p db hp hcount
  constructor
  · have hdel := intake_noneligible_count target q (intake target p db) hq
      (by rw [hid]; exact h1)
    rw [hdel, hid, countId_deleteId]
  · have h2 : countId (markReminded (intake target p db) p.data.id) q.data.id = 1 := by
      rw [hid, countId_markReminded]
      exact h1
    have hdel := intake_noneligible_count target q
      (markReminded (intake target p db) p.data.id) hq h2
    rw [hdel, hid, countId_deleteId]

theorem intake_roundtrip_absent_witness :
    (¬ payloadL.data.state.name = "In Progress") ∧
      countId (intake "In Progress" payloadL
        (intake "In Progress" payloadE1 [])) payloadE1.data.id = 0 :=
  ⟨by decide, (intake_roundtrip_absent "In Progress" payloadE1 payloadL []
    rfl (by decide) rfl (by decide)).1⟩

/-- C4: no premature reminder: whenever the tick's claimed issue has age
`now - updated_at` at most the configured `time_to_remind`, the Notifier is
not called and the claim is released with the table unchanged and no
`reminded = TRUE` update, for every Notifier behaviour and store outcome. -/
theorem worker_no_premature (db : List Issue) (locked : List String)
    (now ttr : Int) (notifier : NotifierResult) (updateOk : Bool)
    (issue : Issue) (hdq : dequeue_issue db locked = some issue)
    (hage : now - issue.updated_at ≤ ttr) :
    workerTick db locked now ttr notifier updateOk = ⟨db, false, false⟩ := by
  simp only [workerTick, hdq]
  rw [if_neg (by omega)]

theorem worker_no_premature_witness :
    dequeue_issue dbW [] = some rowB ∧
      workerTick dbW [] 60 100 (NotifierResult.response 200) true =
        ⟨dbW, false, false⟩ :=
  ⟨by decide, worker_no_premature dbW [] 60 100 (NotifierResult.response 200)
    true rowB (by decide) (by decide)⟩

/-- C5: Notifier-failure atomicity: when the claimed issue is due but the
Notifier call fails (network error or non-2xx status), the tick performs no
`reminded` update and the table is unchanged (the claim transaction is
dropped, i.e. rolled back); the issue is still present and unreminded, hence
eligible for a claim on a subsequent tick once the lock is released. -/
theorem worker_notifier_failure_rollback (db : List Issue)
    (locked : List String) (now ttr : Int) (notifier : NotifierResult)
    (updateOk : Bool) (issue : Issue)
    (hdq : dequeue_issue db locked = some issue)
    (hdue : now - issue.updated_at > ttr)
    (hfail : notifierFailed notifier = true) :
    workerTick db locked now ttr notifier updateOk = ⟨db, true, false⟩ ∧
      issue ∈ db ∧ issue.reminded = false ∧ eligibleB [] issue = true := by
  obtain ⟨h1, h2, _, _⟩ := dequeue_issue_some hdq
  refine ⟨?_, h1, h2, ?_⟩
  · simp only [workerTick, hdq]
    rw [if_pos hdue, if_pos hfail]
  · unfold eligibleB
    simp [h2]

theorem worker_notifier_failure_rollback_witness :
    workerTick dbW [] 200 10 NotifierResult.netError true = ⟨dbW, true, false⟩ :=
  (worker_notifier_failure_rollback dbW [] 200 10 NotifierResult.netError true
    rowB (by decide) (by decide) (by decide)).1

/-- C9: the `reminded` flag becomes `true` only through the worker: intake
never produces a `reminded = true` row that was not already in the table, and
a worker tick commits a `reminded` update only when the Notifier call returned
a 2xx success status, the UPDATE store call succeeded, and exactly one row was
affected — in every other case the tick leaves the committed table
unchanged (rollback). -/
theorem reminded_only_after_delivery :
    (∀ (target : String) (p : Payload) (db : List Issue) (i : Issue),
        i ∈ intake target p db → i.reminded = true → i ∈ db) ∧
    (∀ (db : List Issue) (locked : List String) (now ttr : Int)
        (notifier : NotifierResult) (updateOk : Bool),
      ((workerTick db locked now ttr notifier updateOk).remindedSet = false →
        (workerTick db locked now ttr notifier updateOk).db = db) ∧
      ((workerTick db locked now ttr notifier updateOk).remindedSet = true →
        (dequeue_issue db locked).isSome = true) ∧
      (∀ issue : Issue, dequeue_issue db locked = some issue →
        (workerTick db locked now ttr notifier updateOk).remindedSet = true →
          (∃ s, notifier = NotifierResult.response s ∧ isSuccessStatus s = true) ∧
          updateOk = true ∧ countId db issue.id = 1 ∧
          (workerTick db locked now ttr notifier updateOk).db =
            markReminded db issue.id)) := by
  constructor
  · intro target p db i hmem hrem
    unfold intake at hmem
    split at hmem
    · unfold insertIfAbsent at hmem
      split at hmem
      · exact hmem
      · rcases List.mem_append.1 hmem with h | h
        · exact h
        · have : i = insertedRow p := List.mem_singleton.1 h
          rw [this] at hrem
          cases hrem
    · split at hmem
      · exact (List.mem_filter.1 hmem).1
      · exact hmem
  · intro db locked now ttr notifier updateOk
    refine ⟨?_, ?_, ?_⟩
    · intro h
      rcases hdq : dequeue_issue db locked with _ | issue <;>
        simp only [workerTick, hdq] at h ⊢
      split_ifs at h ⊢ <;> simp_all
    · intro h
      rcases hdq : dequeue_issue db locked with _ | issue
      · simp [workerTick, hdq] at h
      · rfl
    · intro issue hdq h
      simp only [workerTick, hdq] at h ⊢
      by_cases h1 : now - issue.updated_at > ttr
      · rw [if_pos h1] at h ⊢
        by_cases h2 : notifierFailed notifier = true
        · rw [if_pos h2] at h
          simp at h
        · rw [if_neg h2] at h ⊢
          by_cases h3 : (!updateOk) = true
          · rw [if_pos h3] at h
            simp at h
          · rw [if_neg h3] at h ⊢
            by_cases h4 : (countId db issue.id == 1) = true
            · rw [if_pos h4] at h ⊢
              refine ⟨?_, ?_, ?_, rfl⟩
              · cases notifier with
                | netError => exact absurd rfl h2
                | response s =>
                  refine ⟨s, rfl, ?_⟩
                  unfold notifierFailed at h2
                  simpa using h2
              · simpa using h3
              · simpa using h4
            · rw [if_neg h4] at h
              simp at h
      · rw [if_neg h1] at h
        simp at h

theorem reminded_only_after_delivery_witness :
    (workerTick dbW [] 200 10 NotifierResult.netError false).remindedSet = false ∧
      (workerTick dbW [] 200 10 NotifierResult.netError false).db = dbW :=
  ⟨by decide, (reminded_only_after_delivery.2 dbW [] 200 10
    NotifierResult.netError false).1 (by decide)⟩

/-- Constant stand-in for the external HMAC computation in witnesses. -/
def hmacW : String → String → String := fun _ _ => "deadbeef"

def reqBad : RequestModel := ⟨["bad"], true, "-"⟩

def reqGood : RequestModel := ⟨["deadbeef"], true, "-"⟩

def reqBig : RequestModel := ⟨["sig"], true, "{ }"⟩

/-- C6: authentication rejection: a JSON request within the body limit whose
`Linear-Signature` header is absent, or present but different from the hex
HMAC-SHA256 of the body under the shared secret, is rejected with 400 by the
data guard — for every parser, i.e. before parsing — and handling it leaves
the table unchanged with no Notifier call; `is_valid_signature` returns
`false` (it is a total Bool-valued function) on every mismatching header. -/
theorem auth_rejection (hmacHex : String → String → String)
    (parse : String → Option Payload) (signingKey target : String)
    (limitCfg : Option Nat) (now : Int) (req : RequestModel) (db : List Issue)
    (hct : req.contentTypeJson = true)
    (hlen : req.body.length ≤ jsonLimit limitCfg)
    (hsig : req.sigHeaders = [] ∨
      ∃ s, req.sigHeaders = [s] ∧ s ≠ hmacHex signingKey req.body) :
    from_data hmacHex parse signingKey limitCfg now req = DataOutcome.error 400 ∧
      handleRequest hmacHex parse signingKey target limitCfg now req db =
        ⟨some 400, db, false⟩ ∧
      (∀ s : String, s ≠ hmacHex signingKey req.body →
        is_valid_signature hmacHex s req.body signingKey = false) := by
  have hnl : ¬ jsonLimit limitCfg < req.body.length := Nat.not_lt.2 hlen
  have hfd : from_data hmacHex parse signingKey limitCfg now req =
      DataOutcome.error 400 := by
    rcases hsig with h | ⟨s, hs, hne⟩
    · unfold from_data
      rw [h]
    · have hv : is_valid_signature hmacHex s req.body signingKey = false := by
        unfold is_valid_signature
        exact beq_eq_false_iff_ne.2 (Ne.symm hne)
      simp [from_data, hs, hct, hv, hnl]
  refine ⟨hfd, ?_, ?_⟩
  · unfold handleRequest
    rw [hfd]
  · intro s hne
    unfold is_valid_signature
    exact beq_eq_false_iff_ne.2 (Ne.symm hne)

theorem auth_rejection_witness :
    from_data hmacW (fun _ => none) "k" none 0 reqBad = DataOutcome.error 400 :=
  (auth_rejection hmacW (fun _ => none) "k" "In Progress" none 0 reqBad dbW
    rfl (by decide) (Or.inr ⟨"bad", rfl, by decide⟩)).1

/-- C7: replay rejection: for a request that passes the header, content type,
size, signature and parse steps, the guard rejects with 400 (and the table is
left unchanged) exactly when the declared webhook timestamp is more than 60
seconds older than the handler's current time; an event at most 60 seconds
old passes the staleness check and is handed to the route. -/
theorem replay_rejection (hmacHex : String → String → String)
    (parse : String → Option Payload) (signingKey target : String)
    (limitCfg : Option Nat) (now : Int) (req : RequestModel) (db : List Issue)
    (p : Payload) (wt : Int)
    (hct : req.contentTypeJson = true)
    (hlen : req.body.length ≤ jsonLimit limitCfg)
    (hsig : req.sigHeaders = [hmacHex signingKey req.body])
    (hparse : parse req.body = some p)
    (hts : fromTimestamp p.webhook_timestamp = some wt) :
    (now - wt > 60 →
      from_data hmacHex parse signingKey limitCfg now req =
          DataOutcome.error 400 ∧
        handleRequest hmacHex parse signingKey target limitCfg now req db =
          ⟨some 400, db, false⟩) ∧
    (now - wt ≤ 60 →
      from_data hmacHex parse signingKey limitCfg now req =
        DataOutcome.success p) := by
  have hnl : ¬ jsonLimit limitCfg < req.body.length := Nat.not_lt.2 hlen
  have hv : is_valid_signature hmacHex (hmacHex signingKey req.body) req.body
      signingKey = true := by
    unfold is_valid_signature
    exact beq_self_eq_true _
  constructor
  · intro hstale
    have hfd : from_data hmacHex parse signingKey limitCfg now req =
        DataOutcome.error 400 := by
      simp [from_data, hsig, hct, hnl, hv, hparse, hts, hstale]
    refine ⟨hfd, ?_⟩
    unfold handleRequest
    rw [hfd]
  · intro hfresh
    have hns : ¬ now - wt > 60 := by omega
    simp [from_data, hsig, hct, hnl, hv, hparse, hts, hns]

theorem replay_rejection_witness :
    from_data hmacW (fun _ => some payloadE1) "k" none 100 reqGood =
      DataOutcome.error 400 :=
  ((replay_rejection hmacW (fun _ => some payloadE1) "k" "In Progress" none 100
    reqGood dbW payloadE1 0 rfl (by decide) rfl rfl (by decide)).1
    (by decide)).1

/-- C10: oversized-body rejection: a request carrying exactly one signature
header and a JSON content type whose body exceeds the configured `json` byte
limit (default 5000 bytes when unconfigured) is rejected with 413 by the data
guard — for every HMAC function and parser, i.e. before signature
verification and parsing — and handling it leaves the table unchanged with no
Notifier call. -/
theorem oversized_body_rejection (hmacHex : String → String → String)
    (parse : String → Option Payload) (signingKey target : String)
    (limitCfg : Option Nat) (now : Int) (req : RequestModel) (db : List Issue)
    (s : String) (hhdr : req.sigHeaders = [s]) (hct : req.contentTypeJson = true)
    (hlen : jsonLimit limitCfg < req.body.length) :
    from_data hmacHex parse signingKey limitCfg now req = DataOutcome.error 413 ∧
      handleRequest hmacHex parse signingKey target limitCfg now req db =
        ⟨some 413, db, false⟩ ∧
      jsonLimit none = 5000 := by
  have hfd : from_data hmacHex parse signingKey limitCfg now req =
      DataOutcome.error 413 := by
    simp [from_data, hhdr, hct, hlen]
  refine ⟨hfd, ?_, rfl⟩
  unfold handleRequest
  rw [hfd]

theorem oversized_body_rejection_witness :
    from_data hmacW (fun _ => none) "k" (some 2) 0 reqBig = DataOutcome.error 413 :=
  (oversized_body_rejection hmacW (fun _ => none) "k" "In Progress" (some 2) 0
    reqBig dbW "sig" rfl rfl (by decide)).1

/-- C8 counterexample: the item is tracked (`[rowA]`) and the event reports it
left the target state, so the handler takes the delete path; the
existence-check query fails (`countOk = false`), yet `webhook_linear` returns
the success outcome with the table committed unchanged — the failure is not
surfaced as an internal error.  The cause is the guard
`else if let Ok(true) = issue_in_db(..)` (main.rs:322), which treats a store
error like `Ok(false)` and falls through to the commit. -/
theorem intake_count_failure_swallowed :
    webhook_linear "In Progress" payloadL [rowA] true true false true true =
      (Except.ok (), [rowA]) ∧
    (webhook_linear "In Progress" payloadL [rowA] true true false true
      true).1 ≠ Except.error () := by
  constructor
  · rfl
  · intro h
    exact Except.noConfusion h

/-- C8 amended: a Store failure of `begin`, of the insert, of the delete, or
of the commit aborts the intake transaction with no partial write and is
surfaced as an internal-error outcome; every error outcome leaves the table
unchanged; but a failure of the existence-check query on the delete path is
swallowed — the handler skips the delete, commits, and reports success with
the table unchanged. -/
theorem intake_store_failure_surfacing (target : String) (p : Payload)
    (db : List Issue) (beginOk insertOk countOk deleteOk commitOk : Bool) :
    ((webhook_linear target p db beginOk insertOk countOk deleteOk commitOk).1 =
        Except.error () →
      (webhook_linear target p db beginOk insertOk countOk deleteOk
        commitOk).2 = db) ∧
    (beginOk = false →
      webhook_linear target p db beginOk insertOk countOk deleteOk commitOk =
        (Except.error (), db)) ∧
    (p.data.state.name = target → beginOk = true →
      insertOk = false ∨ commitOk = false →
      webhook_linear target p db beginOk insertOk countOk deleteOk commitOk =
        (Except.error (), db)) ∧
    (¬ p.data.state.name = target → beginOk = true → countOk = true →
      issue_in_db db p.data.id = true →
      deleteOk = false ∨ commitOk = false →
      webhook_linear target p db beginOk insertOk countOk deleteOk commitOk =
        (Except.error (), db)) ∧
    (¬ p.data.state.name = target → beginOk = true → countOk = false →
      commitOk = true →
      webhook_linear target p db beginOk insertOk countOk deleteOk commitOk =
        (Except.ok (), db)) := by
  refine ⟨?_, ?_, ?_, ?_, ?_⟩
  · intro h
    unfold webhook_linear at h ⊢
    split_ifs at h ⊢ <;> simp_all
  · intro hb
    subst hb
    simp [webhook_linear]
  · intro helig hb hor
    subst hb
    have he : (p.data.state.name == target) = true := by simp [helig]
    rcases hor with h | h
    · subst h
      simp [webhook_linear, he]
    · subst h
      cases insertOk <;> simp [webhook_linear, he]
  · intro hne hb hc hin hor
    subst hb
    subst hc
    have he : (p.data.state.name == target) = false := by simp [hne]
    rcases hor with h | h
    · subst h
      simp [webhook_linear, he, hin]
    · subst h
      cases deleteOk <;> simp [webhook_linear, he, hin]
  · intro hne hb hc hcm
    subst hb
    subst hc
    subst hcm
    have he : (p.data.state.name == target) = false := by simp [hne]
    simp [webhook_linear, he]

theorem intake_store_failure_surfacing_witness :
    webhook_linear "In Progress" payloadE1 dbW false true true true true =
      (Except.error (), dbW) :=
  (intake_store_failure_surfacing "In Progress" payloadE1 dbW false true true
    true true).2.1 rfl
